import Mathlib

/-!
Shallow embedding of the SWI protocol tool (swi_tool.c).

Two levels are modelled, matching the layering of the source:

1. The bit-level protocol engine executed on core 1 (tx_byte, read_byte,
   discovery_response, and the core1 dispatch loop body).  The single-wire
   line is abstracted as an oracle `Line`: each call to the pin sampler
   sio_get_value consumes one oracle value, and each transmitted bit
   (tx_one / tx_zero) is appended to a trace.  The timing delays have no
   functional content and are dropped.

2. The session operations executed on core 0 (load_address, read_eeprom,
   verified_read, read_mfr_id, read_block), which talk to core 1 only
   through send_cmd.  Here `Bus` abstracts the pair (FIFO, core 1): each
   send_cmd consumes one 8-bit response from an oracle and records the
   (cmd, data) envelope it sent in a trace.

All machine integers are modelled as Nat (with explicit % 256 where the
C code converts to uint8_t) and as Int where the C code uses int return
values for error codes.
-/

set_option maxRecDepth 100000

/-- Command codes from swi_tool.c. -/
def TX_BYTE : Nat := 0x01

def DISCOVERY : Nat := 0x02

def RX_BYTE : Nat := 0x03

def SEND_ACK : Nat := 0

def SEND_NACK : Nat := 1

def OPCODE_EEPROM_ACCESS : Nat := 0xA0

def OPCODE_MANUFACTURER_ID : Nat := 0xC0

def RW_BIT : Nat := 0x01

/-- The single-wire line as seen by core 1: an oracle giving the result of
each successive pin sample (sio_get_value), a counter of samples consumed,
and the trace of bits transmitted so far (1 for tx_one, 0 for tx_zero). -/
structure Line where
  reads : Nat → Nat
  nreads : Nat
  sent : List Nat

/-- Model of sio_get_value: sample the pin, consuming one oracle value. -/
def sio_get_value (l : Line) : Nat × Line :=
  (l.reads l.nreads, ⟨l.reads, l.nreads + 1, l.sent⟩)

/-- Model of tx_one: transmit a logic 1 bit (pulse widths dropped). -/
def tx_one (l : Line) : Line :=
  ⟨l.reads, l.nreads, l.sent ++ [1]⟩

/-- Model of tx_zero: transmit a logic 0 bit (pulse widths dropped). -/
def tx_zero (l : Line) : Line :=
  ⟨l.reads, l.nreads, l.sent ++ [0]⟩

/-- Model of read_bit: toggle, sample, mask to one bit. -/
def read_bit (l : Line) : Nat × Line :=
  let s := sio_get_value l
  (s.1 &&& 0x01, s.2)

/-- Model of ack_nack: read one bit; 1 maps to NACK 0xFF, 0 to ACK 0x00. -/
def ack_nack (l : Line) : Nat × Line :=
  let r := read_bit l
  (if r.1 ≠ 0 then 0xFF else 0x00, r.2)

/-- The 8-iteration transmit loop of tx_byte: test bit 0x80, send it,
left-shift the working byte (uint8_t, hence % 256). -/
def tx_byte_loop : Nat → Nat → Line → Line
  | 0, _, l => l
  | n + 1, d, l =>
      tx_byte_loop n ((d <<< 1) % 256)
        (if d &&& 0x80 ≠ 0 then tx_one l else tx_zero l)

/-- Model of tx_byte: transmit the 8 bits MSB-first, then read ack/nack. -/
def tx_byte (data_byte : Nat) (l : Line) : Nat × Line :=
  ack_nack (tx_byte_loop 8 (data_byte % 256) l)

/-- The 8-iteration receive loop of read_byte:
data_byte = (data_byte << 1) | read_bit(), with uint8_t truncation. -/
def read_byte_loop : Nat → Nat → Line → Nat × Line
  | 0, d, l => (d, l)
  | n + 1, d, l =>
      let r := read_bit l
      read_byte_loop n (((d <<< 1) ||| r.1) % 256) r.2

/-- Model of read_byte: read 8 bits MSB-first, then send the caller-chosen
ack (nonzero selects tx_one, zero selects tx_zero), return the byte. -/
def read_byte (ack : Nat) (l : Line) : Nat × Line :=
  let r := read_byte_loop 8 0 l
  (r.1, if ack ≠ 0 then tx_one r.2 else tx_zero r.2)

/-- Model of rx_byte: alias for read_byte. -/
def rx_byte (ack : Nat) (l : Line) : Nat × Line :=
  read_byte ack l

/-- Model of discovery_response: after the reset/discovery waveform, sample
once; a low sample means ACK (0x00), high means NACK (0xFF). -/
def discovery_response (l : Line) : Nat × Line :=
  let s := sio_get_value l
  ((if s.1 = 0 then 0x00 else 0xFF), s.2)

/-- One iteration of the core1_entry loop body: decode the 32-bit FIFO item
into opcode and payload, dispatch to the protocol primitive, and produce
the result byte pushed back (unknown opcode yields 0xFF). -/
def core1_step (item : Nat) (l : Line) : Nat × Line :=
  let cmd := (item >>> 24) &&& 0xFF
  let data := item &&& 0xFF
  if cmd = TX_BYTE then tx_byte data l
  else if cmd = DISCOVERY then discovery_response l
  else if cmd = RX_BYTE then rx_byte data l
  else (0xFF, l)

/-- The 32-bit FIFO word built by send_cmd: (cmd << 24) | data, with the
uint8_t parameter conversions and the uint32_t width made explicit. -/
def fifo_word (cmd data : Nat) : Nat :=
  (((cmd % 256) <<< 24) ||| (data % 256)) % 2 ^ 32

/-- Opcode decoding in core1_entry: (item >> 24) & 0xFF. -/
def fifo_cmd (item : Nat) : Nat :=
  (item >>> 24) &&& 0xFF

/-- Payload decoding in core1_entry: item & 0xFF. -/
def fifo_data (item : Nat) : Nat :=
  item &&& 0xFF

/-- Core 0's view of the command channel plus core 1: an oracle giving the
8-bit result byte of each successive send_cmd, a counter of calls made,
and the trace of (cmd, data) envelopes sent so far. -/
structure Bus where
  resp : Nat → Nat
  calls : Nat
  trace : List (Nat × Nat)

/-- Model of send_cmd: push the (cmd, data) envelope (uint8_t parameters),
block for the response, return it cast to uint8_t. -/
def send_cmd (cmd data : Nat) (b : Bus) : Nat × Bus :=
  ((b.resp b.calls) % 256,
   ⟨b.resp, b.calls + 1, b.trace ++ [(cmd % 256, data % 256)]⟩)

/-- Model of load_address: range-check the data address, address the device
with write intent, then send the address byte; distinct negative codes per
failure point, 1 on success. -/
def load_address (dev_addr data_addr : Nat) (b : Bus) : Int × Bus :=
  if data_addr > 128 then (-1, b)
  else
    let r1 := send_cmd TX_BYTE (OPCODE_EEPROM_ACCESS ||| dev_addr ||| 0) b
    if r1.1 ≠ 0 then (-2, r1.2)
    else
      let r2 := send_cmd TX_BYTE data_addr r1.2
      if r2.1 ≠ 0 then (-3, r2.2)
      else (1, r2.2)

/-- Model of read_eeprom: load the address (shifting its failures by -5),
wait a stop condition, re-address with read intent (-5 on NACK), then
receive one byte with a NACK-to-device acknowledgment. -/
def read_eeprom (dev_addr data_addr : Nat) (b : Bus) : Int × Bus :=
  let res := load_address dev_addr data_addr b
  if res.1 < 0 then (res.1 - 5, res.2)
  else
    let r1 := send_cmd TX_BYTE (OPCODE_EEPROM_ACCESS ||| dev_addr ||| RW_BIT) res.2
    if r1.1 ≠ 0 then (-5, r1.2)
    else
      let r2 := send_cmd RX_BYTE SEND_NACK r1.2
      ((r2.1 : Int), r2.2)

/-- Model of verified_read: read twice; on match return the value, else
read a third time and return any 2-of-3 majority, else -1. -/
def verified_read (dev_addr data_addr : Nat) (b : Bus) : Int × Bus :=
  let r0 := read_eeprom dev_addr data_addr b
  let r1 := read_eeprom dev_addr data_addr r0.2
  if r0.1 = r1.1 then (r0.1, r1.2)
  else
    let r2 := read_eeprom dev_addr data_addr r1.2
    if r1.1 = r2.1 then (r1.1, r2.2)
    else if r2.1 = r0.1 then (r2.1, r2.2)
    else (-1, r2.2)

/-- Model of read_mfr_id: discovery, then the manufacturer-ID opcode with
read intent, then three receives (ACK, ACK, NACK) packed big-endian into a
24-bit id; any earlier failure leaves the id at 0. -/
def read_mfr_id (dev_addr : Nat) (b : Bus) : Nat × Bus :=
  let a1 := send_cmd DISCOVERY 0 b
  if a1.1 ≠ 0 then (0, a1.2)
  else
    let a2 := send_cmd TX_BYTE (OPCODE_MANUFACTURER_ID ||| dev_addr ||| RW_BIT) a1.2
    if a2.1 ≠ 0 then (0, a2.2)
    else
      let d0 := send_cmd RX_BYTE SEND_ACK a2.2
      let d1 := send_cmd RX_BYTE SEND_ACK d0.2
      let d2 := send_cmd RX_BYTE SEND_NACK d1.2
      ((0 ||| (d0.1 <<< 16) ||| (d1.1 <<< 8) ||| (d2.1 <<< 0)) % 2 ^ 32, d2.2)

/-- The for-loop of read_block: index i, remaining count n; each step does a
verified_read of address data_addr + i (converted to uint8_t), aborts the
whole block with -3 on a negative result, otherwise stores the byte at
index i and continues; returns 1 when the loop completes. -/
def read_block_loop (dev_addr data_addr : Nat) :
    Nat → Nat → List Nat → Bus → Int × List Nat × Bus
  | _, 0, buf, b => (1, buf, b)
  | i, n + 1, buf, b =>
      let r := verified_read dev_addr ((data_addr + i) % 256) b
      if r.1 < 0 then (-3, buf, r.2)
      else read_block_loop dev_addr data_addr (i + 1) n
        (buf.set i (r.1.toNat % 256)) r.2

/-- Model of read_block: range-check data_addr + len against 128 (computed
in full integer arithmetic, as in C after integer promotion), confirm the
device with a DISCOVERY command, then read every address of the block. -/
def read_block (dev_addr data_addr : Nat) (buf : List Nat) (len : Nat)
    (b : Bus) : Int × List Nat × Bus :=
  if data_addr + len > 128 then (-1, buf, b)
  else
    let a := send_cmd DISCOVERY 0 b
    if a.1 ≠ 0 then (-2, buf, a.2)
    else read_block_loop dev_addr data_addr 0 len buf a.2

/-- A bus whose oracle replays a fixed list of responses (0 afterwards),
starting with no calls made and an empty trace. -/
def mkBus (rs : List Nat) : Bus :=
  ⟨fun i => rs.getD i 0, 0, []⟩

/-- A line whose oracle replays a fixed list of samples (0 afterwards),
starting with no samples consumed and an empty transmit trace. -/
def mkLine (rs : List Nat) : Line :=
  ⟨fun i => rs.getD i 0, 0, []⟩

/-- The bus state after j complete verified_read calls of the read_block
loop, starting at loop index i from bus state b. -/
def vr_bus (dev_addr data_addr i : Nat) (b : Bus) : Nat → Bus
  | 0 => b
  | j + 1 =>
      (verified_read dev_addr ((data_addr + (i + j)) % 256)
        (vr_bus dev_addr data_addr i b j)).2

/-- The result of the (j+1)-st verified_read of the read_block loop,
starting at loop index i from bus state b. -/
def vr_val (dev_addr data_addr i : Nat) (b : Bus) (j : Nat) : Int :=
  (verified_read dev_addr ((data_addr + (i + j)) % 256)
    (vr_bus dev_addr data_addr i b j)).1

/-! ### Helper lemmas -/

/-- Oring a value below 2 ^ w into a multiple of 2 ^ w is addition. -/
lemma two_pow_mul_lor : ∀ (w a b : Nat), b < 2 ^ w → 2 ^ w * a ||| b = 2 ^ w * a + b := by
  intro w
  induction w with
  | zero =>
      intro a b hb
      have hb0 : b = 0 := by omega
      subst hb0
      simp
  | succ w ih =>
      intro a b hb
      have hbit : Nat.bit b.bodd b.div2 = b := Nat.bit_decomp b
      rw [← hbit]
      have h2 : 2 ^ (w + 1) * a = Nat.bit false (2 ^ w * a) := by
        show 2 ^ (w + 1) * a = 2 * (2 ^ w * a)
        ring
      have hdb : b.div2 < 2 ^ w := by
        have hp : 2 ^ (w + 1) = 2 * 2 ^ w := by ring
        rw [Nat.div2_val]
        omega
      rw [h2, Nat.lor_bit, Bool.false_or, ih _ _ hdb, Nat.bit_add]

/-- Shifted-or of a small value is multiplication plus addition. -/
lemma shiftLeft_lor_eq_add (a w b : Nat) (hb : b < 2 ^ w) :
    a <<< w ||| b = a * 2 ^ w + b := by
  rw [Nat.shiftLeft_eq, Nat.mul_comm a (2 ^ w), two_pow_mul_lor w a b hb]

/-- Every send_cmd response is a byte. -/
lemma send_cmd_fst_lt (cmd data : Nat) (b : Bus) : (send_cmd cmd data b).1 < 256 :=
  Nat.mod_lt _ (by norm_num)

/-- load_address returns one of -1, -2, -3, 1. -/
lemma load_address_cases (dev_addr data_addr : Nat) (b : Bus) :
    (load_address dev_addr data_addr b).1 = -1 ∨
    (load_address dev_addr data_addr b).1 = -2 ∨
    (load_address dev_addr data_addr b).1 = -3 ∨
    (load_address dev_addr data_addr b).1 = 1 := by
  simp only [load_address]
  split_ifs <;> simp

/-- read_eeprom results are at most 255. -/
lemma read_eeprom_le (dev_addr data_addr : Nat) (b : Bus) :
    (read_eeprom dev_addr data_addr b).1 ≤ 255 := by
  have hx := send_cmd_fst_lt RX_BYTE SEND_NACK
    (send_cmd TX_BYTE (OPCODE_EEPROM_ACCESS ||| dev_addr ||| RW_BIT)
      (load_address dev_addr data_addr b).2).2
  simp only [read_eeprom]
  split_ifs with h1 h2 <;> simp <;> omega


/-- verified_read results are at most 255. -/
lemma verified_read_le (dev_addr data_addr : Nat) (b : Bus) :
    (verified_read dev_addr data_addr b).1 ≤ 255 := by
  have h0 := read_eeprom_le dev_addr data_addr b
  have h1 := read_eeprom_le dev_addr data_addr (read_eeprom dev_addr data_addr b).2
  have h2 := read_eeprom_le dev_addr data_addr
    (read_eeprom dev_addr data_addr (read_eeprom dev_addr data_addr b).2).2
  simp only [verified_read]
  split_ifs <;> simp <;> omega

/-! ### Claim theorems -/

/-- Claim C1 (amended): for every device address, every bus state, and
every target address strictly greater than 128, load_address rejects the
request with its range-error code -1 and leaves the bus untouched, so no
command reaches the executor.  (Target address 128 itself, although one
past the logical range [0,127], passes the validation; see the
counterexample.) -/
theorem load_address_range_reject (dev_addr data_addr : Nat) (b : Bus)
    (h : data_addr > 128) : load_address dev_addr data_addr b = (-1, b) := by
  simp [load_address, h]

/-- Witness for the amended C1 at device address 0, target address 129. -/
theorem load_address_range_reject_witness :
    load_address 0 129 (mkBus []) = (-1, mkBus []) :=
  load_address_range_reject 0 129 (mkBus []) (by decide)

/-- Claim C1 counterexample: at target address 128 — which is outside the
logical range [0,127] — with a device that acknowledges every step,
load_address does not return -1, and two commands are sent on the bus. -/
theorem load_address_at_128_not_rejected :
    (load_address 0 128 (mkBus [])).1 = 1 ∧
    (load_address 0 128 (mkBus [])).2.trace = [(TX_BYTE, 0xA0), (TX_BYTE, 128)] := by
  decide

/-- Claim C2: verified_read performs two reads and, when they agree,
returns the common value with no third read; when they disagree it reads a
third time and returns the value attained by any 2-of-3 majority, and when
all three results are pairwise distinct it returns the sentinel -1.  The
sample sequences (5,5), (5,6,6) and (5,6,7) yield 5, 6 and -1. -/
theorem verified_read_majority :
    (∀ (dev_addr data_addr : Nat) (b : Bus) (v0 v1 : Int) (b0 b1 : Bus),
      read_eeprom dev_addr data_addr b = (v0, b0) →
      read_eeprom dev_addr data_addr b0 = (v1, b1) →
      (v0 = v1 → verified_read dev_addr data_addr b = (v0, b1)) ∧
      (v0 ≠ v1 → ∀ (v2 : Int) (b2 : Bus),
        read_eeprom dev_addr data_addr b1 = (v2, b2) →
        (v1 = v2 → verified_read dev_addr data_addr b = (v1, b2)) ∧
        (v1 ≠ v2 → v2 = v0 → verified_read dev_addr data_addr b = (v2, b2)) ∧
        (v1 ≠ v2 → v2 ≠ v0 → verified_read dev_addr data_addr b = (-1, b2)))) ∧
    (verified_read 0 0 (mkBus [0, 0, 0, 5, 0, 0, 0, 5])).1 = 5 ∧
    (verified_read 0 0 (mkBus [0, 0, 0, 5, 0, 0, 0, 6, 0, 0, 0, 6])).1 = 6 ∧
    (verified_read 0 0 (mkBus [0, 0, 0, 5, 0, 0, 0, 6, 0, 0, 0, 7])).1 = -1 := by
  refine ⟨?_, by decide, by decide, by decide⟩
  intro dev_addr data_addr b v0 v1 b0 b1 h0 h1
  refine ⟨fun hv => ?_, fun hv v2 b2 h2 => ⟨fun hv2 => ?_, fun hv2 hv20 => ?_,
    fun hv2 hv20 => ?_⟩⟩
  · simp [verified_read, h0, h1, hv]
  · subst hv2
    simp [verified_read, h0, h1, h2, hv]
  · subst hv20
    simp [verified_read, h0, h1, h2, hv, hv2]
  · simp [verified_read, h0, h1, h2, hv, hv2, hv20]

/-- Witness for C2 on the matching sample sequence (5,5). -/
theorem verified_read_majority_witness :
    (verified_read 0 0 (mkBus [0, 0, 0, 5, 0, 0, 0, 5])).1 = 5 := by
  have h := ((verified_read_majority.1 0 0 (mkBus [0, 0, 0, 5, 0, 0, 0, 5]) 5 5
    (read_eeprom 0 0 (mkBus [0, 0, 0, 5, 0, 0, 0, 5])).2
    (read_eeprom 0 0 (read_eeprom 0 0 (mkBus [0, 0, 0, 5, 0, 0, 0, 5])).2).2
    rfl rfl).1 rfl)
  rw [h]

/-- Claim C6: read_eeprom returns either the received byte as a value in
[0,255], or a negative code identifying the failure point: the three
load_address failure causes are shifted to -6, -7, -8, disjoint from the
re-addressing NACK code -5. -/
theorem read_eeprom_codes (dev_addr data_addr : Nat) (b : Bus) :
    ((read_eeprom dev_addr data_addr b).1 = -6 ∨
     (read_eeprom dev_addr data_addr b).1 = -7 ∨
     (read_eeprom dev_addr data_addr b).1 = -8 ∨
     (read_eeprom dev_addr data_addr b).1 = -5 ∨
     (0 ≤ (read_eeprom dev_addr data_addr b).1 ∧
      (read_eeprom dev_addr data_addr b).1 ≤ 255)) ∧
    ((load_address dev_addr data_addr b).1 = -1 →
      (read_eeprom dev_addr data_addr b).1 = -6) ∧
    ((load_address dev_addr data_addr b).1 = -2 →
      (read_eeprom dev_addr data_addr b).1 = -7) ∧
    ((load_address dev_addr data_addr b).1 = -3 →
      (read_eeprom dev_addr data_addr b).1 = -8) ∧
    ((load_address dev_addr data_addr b).1 = 1 →
      (read_eeprom dev_addr data_addr b).1 = -5 ∨
      (0 ≤ (read_eeprom dev_addr data_addr b).1 ∧
       (read_eeprom dev_addr data_addr b).1 ≤ 255)) := by
  have hx := send_cmd_fst_lt RX_BYTE SEND_NACK
    (send_cmd TX_BYTE (OPCODE_EEPROM_ACCESS ||| dev_addr ||| RW_BIT)
      (load_address dev_addr data_addr b).2).2
  have hcases := load_address_cases dev_addr data_addr b
  refine ⟨?_, fun h => ?_, fun h => ?_, fun h => ?_, fun h => ?_⟩ <;>
    [rcases hcases with h | h | h | h; skip; skip; skip; skip] <;>
    simp only [read_eeprom, h] <;> split_ifs <;> simp_all <;> omega

/-- Witness for C6: a target address above 128 makes load_address fail
with -1 and read_eeprom report the shifted code -6. -/
theorem read_eeprom_codes_witness :
    (read_eeprom 0 200 (mkBus [])).1 = -6 :=
  (read_eeprom_codes 0 200 (mkBus [])).2.1 (by decide)

/-- Packing three bytes big-endian by shift-or equals the weighted sum. -/
lemma pack3_bytes (x y z : Nat) (hx : x < 256) (hy : y < 256) (hz : z < 256) :
    (0 ||| (x <<< 16) ||| (y <<< 8) ||| (z <<< 0)) % 2 ^ 32 =
      x * 65536 + y * 256 + z := by
  have h1 : y <<< 8 ||| z = y * 256 + z := by
    have h := shiftLeft_lor_eq_add y 8 z (by omega)
    norm_num at h
    exact h
  have h2 : x <<< 16 ||| (y * 256 + z) = x * 65536 + (y * 256 + z) := by
    have h := shiftLeft_lor_eq_add x 16 (y * 256 + z) (by omega)
    norm_num at h
    exact h
  rw [Nat.zero_or, Nat.shiftLeft_zero, Nat.lor_assoc, h1, h2, Nat.mod_eq_of_lt (by omega)]
  omega

/-- Claim C5: read_mfr_id returns 0 when Discovery does not acknowledge or
when the manufacturer-ID opcode transmission does not acknowledge; when
both acknowledge it returns the 24-bit value formed from the three
received bytes, first byte most significant, the first two receives
requested with ACK and the third with NACK.  Received bytes
(0x00, 0xD3, 0x80) yield 0x00D380, and a NACK at the opcode step yields 0. -/
theorem read_mfr_id_spec :
    (∀ (dev_addr : Nat) (b : Bus),
      ((send_cmd DISCOVERY 0 b).1 ≠ 0 → (read_mfr_id dev_addr b).1 = 0) ∧
      (∀ b1 : Bus, send_cmd DISCOVERY 0 b = (0, b1) →
        (send_cmd TX_BYTE (OPCODE_MANUFACTURER_ID ||| dev_addr ||| RW_BIT) b1).1 ≠ 0 →
        (read_mfr_id dev_addr b).1 = 0) ∧
      (∀ b1 b2 : Bus, send_cmd DISCOVERY 0 b = (0, b1) →
        send_cmd TX_BYTE (OPCODE_MANUFACTURER_ID ||| dev_addr ||| RW_BIT) b1 = (0, b2) →
        (read_mfr_id dev_addr b).1 =
          (send_cmd RX_BYTE SEND_ACK b2).1 * 65536 +
          (send_cmd RX_BYTE SEND_ACK (send_cmd RX_BYTE SEND_ACK b2).2).1 * 256 +
          (send_cmd RX_BYTE SEND_NACK
            (send_cmd RX_BYTE SEND_ACK (send_cmd RX_BYTE SEND_ACK b2).2).2).1 ∧
        (read_mfr_id dev_addr b).2.trace = b.trace ++
          [(DISCOVERY, 0),
           (TX_BYTE, (OPCODE_MANUFACTURER_ID ||| dev_addr ||| RW_BIT) % 256),
           (RX_BYTE, SEND_ACK), (RX_BYTE, SEND_ACK), (RX_BYTE, SEND_NACK)])) ∧
    (read_mfr_id 0 (mkBus [0, 0, 0x00, 0xD3, 0x80])).1 = 0x00D380 ∧
    (read_mfr_id 0 (mkBus [0, 1])).1 = 0 := by
  refine ⟨?_, by decide, by decide⟩
  intro dev_addr b
  refine ⟨fun h => ?_, fun b1 h1 h2 => ?_, fun b1 b2 h1 h2 => ?_⟩
  · simp [read_mfr_id, h]
  · simp [read_mfr_id, h1, h2]
  · have e : read_mfr_id dev_addr b =
        ((0 ||| ((send_cmd RX_BYTE SEND_ACK b2).1 <<< 16) |||
          ((send_cmd RX_BYTE SEND_ACK (send_cmd RX_BYTE SEND_ACK b2).2).1 <<< 8) |||
          ((send_cmd RX_BYTE SEND_NACK
            (send_cmd RX_BYTE SEND_ACK (send_cmd RX_BYTE SEND_ACK b2).2).2).1 <<< 0)) % 2 ^ 32,
         (send_cmd RX_BYTE SEND_NACK
            (send_cmd RX_BYTE SEND_ACK (send_cmd RX_BYTE SEND_ACK b2).2).2).2) := by
      simp [read_mfr_id, h1, h2]
    refine ⟨?_, ?_⟩
    · rw [e]
      exact pack3_bytes _ _ _ (send_cmd_fst_lt _ _ _) (send_cmd_fst_lt _ _ _)
        (send_cmd_fst_lt _ _ _)
    · rw [e]
      have ht1 := congrArg (fun p => p.2.trace) h1
      have ht2 := congrArg (fun p => p.2.trace) h2
      simp only [send_cmd] at ht1 ht2 ⊢
      rw [← ht2, ← ht1]
      simp [DISCOVERY, TX_BYTE, RX_BYTE, SEND_ACK, SEND_NACK]

/-- Witness for C5 on the sample device returning (0x00, 0xD3, 0x80). -/
theorem read_mfr_id_spec_witness :
    (read_mfr_id 0 (mkBus [0, 0, 0x00, 0xD3, 0x80])).1 = 0x00D380 := by
  have h := ((read_mfr_id_spec.1 0 (mkBus [0, 0, 0x00, 0xD3, 0x80])).2.2
    (send_cmd DISCOVERY 0 (mkBus [0, 0, 0x00, 0xD3, 0x80])).2
    (send_cmd TX_BYTE (OPCODE_MANUFACTURER_ID ||| 0 ||| RW_BIT)
      (send_cmd DISCOVERY 0 (mkBus [0, 0, 0x00, 0xD3, 0x80])).2).2
    rfl rfl).1
  rw [h]
  decide

/-- The bit sequence emitted by the tx_byte loop: test 0x80, emit, shift. -/
def txBits : Nat → Nat → List Nat
  | 0, _ => []
  | n + 1, d => (if d &&& 0x80 ≠ 0 then 1 else 0) :: txBits n ((d <<< 1) % 256)

/-- The tx_byte loop appends exactly its bit sequence to the line's sent
trace and neither consumes nor alters the sample oracle. -/
lemma tx_byte_loop_sent : ∀ (n d : Nat) (l : Line),
    (tx_byte_loop n d l).sent = l.sent ++ txBits n d ∧
    (tx_byte_loop n d l).reads = l.reads ∧
    (tx_byte_loop n d l).nreads = l.nreads := by
  intro n
  induction n with
  | zero => intro d l; simp [tx_byte_loop, txBits]
  | succ n ih =>
      intro d l
      refine ⟨?_, ?_, ?_⟩
      · show (tx_byte_loop n ((d <<< 1) % 256)
            (if d &&& 0x80 ≠ 0 then tx_one l else tx_zero l)).sent = _
        rw [(ih _ _).1]
        by_cases hb : d &&& 0x80 ≠ 0 <;> simp [hb, tx_one, tx_zero, txBits]
      · show (tx_byte_loop n ((d <<< 1) % 256)
            (if d &&& 0x80 ≠ 0 then tx_one l else tx_zero l)).reads = _
        rw [(ih _ _).2.1]
        by_cases hb : d &&& 0x80 ≠ 0 <;> simp [hb, tx_one, tx_zero]
      · show (tx_byte_loop n ((d <<< 1) % 256)
            (if d &&& 0x80 ≠ 0 then tx_one l else tx_zero l)).nreads = _
        rw [(ih _ _).2.2]
        by_cases hb : d &&& 0x80 ≠ 0 <;> simp [hb, tx_one, tx_zero]

/-- For bytes, the emitted bit sequence is the 8 bits MSB-first. -/
lemma txBits_eq : ∀ v : Nat, v < 256 →
    txBits 8 v = (List.range 8).map (fun i => (v >>> (7 - i)) &&& 1) := by
  decide

/-- Claim C7: tx_byte transmits the 8 bits of v most-significant first and
returns the ack/nack read made on the untouched sample oracle; feeding the
emitted bit sequence into read_byte's accumulation reproduces v. -/
theorem tx_read_byte_roundtrip :
    (∀ (v : Nat) (l : Line), v < 256 →
      (tx_byte v l).2.sent =
        l.sent ++ (List.range 8).map (fun i => (v >>> (7 - i)) &&& 1) ∧
      (tx_byte v l).1 = (ack_nack l).1) ∧
    (∀ v : Nat, v < 256 →
      (read_byte 0 (mkLine (tx_byte v (mkLine [])).2.sent)).1 = v) := by
  constructor
  · intro v l hv
    have hm : v % 256 = v := Nat.mod_eq_of_lt hv
    have h := tx_byte_loop_sent 8 (v % 256) l
    constructor
    · show (ack_nack (tx_byte_loop 8 (v % 256) l)).2.sent = _
      have hs : (ack_nack (tx_byte_loop 8 (v % 256) l)).2.sent =
          (tx_byte_loop 8 (v % 256) l).sent := rfl
      rw [hs, h.1, hm, txBits_eq v hv]
    · show (ack_nack (tx_byte_loop 8 (v % 256) l)).1 = (ack_nack l).1
      simp [ack_nack, read_bit, sio_get_value, h.2.1, h.2.2]
  · decide

/-- Witness for C7 at v = 0xB7 on a fresh line. -/
theorem tx_read_byte_roundtrip_witness :
    (read_byte 0 (mkLine (tx_byte 0xB7 (mkLine [])).2.sent)).1 = 0xB7 :=
  tx_read_byte_roundtrip.2 0xB7 (by decide)

/-- Claim C8: the executor dispatch runs exactly the primitive selected by
the decoded opcode — tx_byte for 0x01, discovery for 0x02, rx_byte for
0x03 — and yields the result byte 0xFF for every other opcode, leaving
the line untouched. -/
theorem core1_dispatch (item : Nat) (l : Line) :
    (fifo_cmd item = TX_BYTE → core1_step item l = tx_byte (fifo_data item) l) ∧
    (fifo_cmd item = DISCOVERY → core1_step item l = discovery_response l) ∧
    (fifo_cmd item = RX_BYTE → core1_step item l = rx_byte (fifo_data item) l) ∧
    (fifo_cmd item ≠ TX_BYTE → fifo_cmd item ≠ DISCOVERY → fifo_cmd item ≠ RX_BYTE →
      core1_step item l = (0xFF, l)) := by
  refine ⟨fun h => ?_, fun h => ?_, fun h => ?_, fun h1 h2 h3 => ?_⟩ <;>
    simp only [fifo_cmd, fifo_data, TX_BYTE, DISCOVERY, RX_BYTE] at * <;>
    simp [core1_step, TX_BYTE, DISCOVERY, RX_BYTE, *]

/-- Witness for C8: a DISCOVERY envelope dispatches to the discovery
primitive. -/
theorem core1_dispatch_witness :
    core1_step (fifo_word DISCOVERY 0) (mkLine []) = discovery_response (mkLine []) :=
  (core1_dispatch (fifo_word DISCOVERY 0) (mkLine [])).2.1 (by decide)

/-- Claim C9: packing an 8-bit opcode and payload as (cmd << 24) | data
and decoding with (item >> 24) & 0xFF and item & 0xFF recovers the pair. -/
theorem fifo_roundtrip : ∀ cmd : Nat, cmd < 256 → ∀ data : Nat, data < 256 →
    fifo_cmd (fifo_word cmd data) = cmd ∧ fifo_data (fifo_word cmd data) = data := by
  intro c hc d hd
  have hand : ∀ x : Nat, x &&& 255 = x % 256 := by
    intro x
    have h := Nat.and_pow_two_sub_one_eq_mod x 8
    norm_num at h
    exact h
  have hw : fifo_word c d = c * 2 ^ 24 + d := by
    unfold fifo_word
    rw [Nat.mod_eq_of_lt hc, Nat.mod_eq_of_lt hd,
      shiftLeft_lor_eq_add c 24 d (by omega), Nat.mod_eq_of_lt (by omega)]
  rw [hw]
  unfold fifo_cmd fifo_data
  rw [Nat.shiftRight_eq_div_pow, hand, hand]
  constructor <;> omega

/-- Witness for C9 at the pair (0xAB, 0xCD). -/
theorem fifo_roundtrip_witness :
    fifo_cmd (fifo_word 0xAB 0xCD) = 0xAB ∧ fifo_data (fifo_word 0xAB 0xCD) = 0xCD :=
  fifo_roundtrip 0xAB (by decide) 0xCD (by decide)

/-- Peeling the first verified_read off the chain of loop iterations. -/
lemma vr_bus_shift (dev_addr data_addr : Nat) : ∀ (j i : Nat) (b : Bus),
    vr_bus dev_addr data_addr i b (j + 1) =
      vr_bus dev_addr data_addr (i + 1)
        (verified_read dev_addr ((data_addr + i) % 256) b).2 j := by
  intro j
  induction j with
  | zero =>
      intro i b
      show (verified_read dev_addr ((data_addr + (i + 0)) % 256)
        (vr_bus dev_addr data_addr i b 0)).2 = _
      simp [vr_bus]
  | succ j ih =>
      intro i b
      show (verified_read dev_addr ((data_addr + (i + (j + 1))) % 256)
          (vr_bus dev_addr data_addr i b (j + 1))).2 =
        (verified_read dev_addr ((data_addr + ((i + 1) + j)) % 256)
          (vr_bus dev_addr data_addr (i + 1)
            (verified_read dev_addr ((data_addr + i) % 256) b).2 j)).2
      rw [ih]
      have h : i + (j + 1) = (i + 1) + j := by omega
      rw [h]

/-- Peeling the first verified_read off the chain of loop results. -/
lemma vr_val_shift (dev_addr data_addr : Nat) (j i : Nat) (b : Bus) :
    vr_val dev_addr data_addr i b (j + 1) =
      vr_val dev_addr data_addr (i + 1)
        (verified_read dev_addr ((data_addr + i) % 256) b).2 j := by
  unfold vr_val
  rw [vr_bus_shift]
  have h : i + (j + 1) = (i + 1) + j := by omega
  rw [h]

/-- When every verified read of the remaining block succeeds, the loop
returns 1, keeps the buffer length, stores each verified value at its
index, and leaves the bus in the chained state. -/
lemma read_block_loop_ok (dev_addr data_addr : Nat) :
    ∀ (n i : Nat) (buf : List Nat) (b : Bus),
    i + n ≤ buf.length →
    (∀ j, j < n → 0 ≤ vr_val dev_addr data_addr i b j) →
    (read_block_loop dev_addr data_addr i n buf b).1 = 1 ∧
    (read_block_loop dev_addr data_addr i n buf b).2.1.length = buf.length ∧
    (∀ k, (read_block_loop dev_addr data_addr i n buf b).2.1.getD k 0 =
      if i ≤ k ∧ k < i + n then (vr_val dev_addr data_addr i b (k - i)).toNat % 256
      else buf.getD k 0) ∧
    (read_block_loop dev_addr data_addr i n buf b).2.2 =
      vr_bus dev_addr data_addr i b n := by
  intro n
  induction n with
  | zero =>
      intro i buf b _ _
      refine ⟨rfl, rfl, ?_, rfl⟩
      intro k
      rw [if_neg (by omega)]
      rfl
  | succ n ih =>
      intro i buf b hlen hpos
      have h0 : 0 ≤ (verified_read dev_addr ((data_addr + i) % 256) b).1 := by
        have h := hpos 0 (by omega)
        simpa [vr_val, vr_bus] using h
      have hred : read_block_loop dev_addr data_addr i (n + 1) buf b =
          read_block_loop dev_addr data_addr (i + 1) n
            (buf.set i ((verified_read dev_addr ((data_addr + i) % 256) b).1.toNat % 256))
            (verified_read dev_addr ((data_addr + i) % 256) b).2 := by
        simp only [read_block_loop]
        rw [if_neg (by omega)]
      rw [hred]
      have hlen2 : (i + 1) + n ≤
          (buf.set i ((verified_read dev_addr ((data_addr + i) % 256) b).1.toNat % 256)).length := by
        rw [List.length_set]
        omega
      have hpos2 : ∀ j, j < n → 0 ≤ vr_val dev_addr data_addr (i + 1)
          (verified_read dev_addr ((data_addr + i) % 256) b).2 j := by
        intro j hj
        rw [← vr_val_shift]
        exact hpos (j + 1) (by omega)
      obtain ⟨ha, hb, hc, hd⟩ := ih (i + 1) _ _ hlen2 hpos2
      refine ⟨ha, ?_, ?_, ?_⟩
      · rw [hb, List.length_set]
      · intro k
        rw [hc k]
        by_cases hk1 : i + 1 ≤ k ∧ k < i + 1 + n
        · rw [if_pos hk1, if_pos (by omega)]
          have hki : k - i = (k - (i + 1)) + 1 := by omega
          rw [hki, vr_val_shift]
        · rw [if_neg hk1]
          by_cases hk2 : k = i
          · subst hk2
            rw [if_pos (by omega)]
            have hklen : k < buf.length := by omega
            rw [List.getD_eq_getElem?_getD, List.getElem?_set_self',
              List.getElem?_eq_getElem hklen]
            show (verified_read dev_addr ((data_addr + k) % 256) b).1.toNat % 256 = _
            have hkk : k - k = 0 := by omega
            rw [hkk]
            simp [vr_val, vr_bus]
          · rw [if_neg (by omega), List.getD_eq_getElem?_getD,
              List.getElem?_set_ne (by omega), List.getD_eq_getElem?_getD]
      · rw [hd, ← vr_bus_shift]

/-- If some verified read of the remaining block fails, the loop aborts
with the single code -3. -/
lemma read_block_loop_abort (dev_addr data_addr : Nat) :
    ∀ (n i : Nat) (buf : List Nat) (b : Bus),
    (∃ j, j < n ∧ vr_val dev_addr data_addr i b j < 0) →
    (read_block_loop dev_addr data_addr i n buf b).1 = -3 := by
  intro n
  induction n with
  | zero =>
      intro i buf b h
      obtain ⟨j, hj, _⟩ := h
      omega
  | succ n ih =>
      intro i buf b h
      by_cases h0 : (verified_read dev_addr ((data_addr + i) % 256) b).1 < 0
      · simp only [read_block_loop]
        rw [if_pos h0]
      · have hred : read_block_loop dev_addr data_addr i (n + 1) buf b =
            read_block_loop dev_addr data_addr (i + 1) n
              (buf.set i ((verified_read dev_addr ((data_addr + i) % 256) b).1.toNat % 256))
              (verified_read dev_addr ((data_addr + i) % 256) b).2 := by
          simp only [read_block_loop]
          rw [if_neg h0]
        rw [hred]
        apply ih
        obtain ⟨j, hj, hneg⟩ := h
        cases j with
        | zero =>
            exfalso
            apply h0
            simpa [vr_val, vr_bus] using hneg
        | succ j =>
            exact ⟨j, by omega, by rw [← vr_val_shift]; exact hneg⟩

/-- The loop only ever returns 1 or -3. -/
lemma read_block_loop_cases (dev_addr data_addr : Nat) :
    ∀ (n i : Nat) (buf : List Nat) (b : Bus),
    (read_block_loop dev_addr data_addr i n buf b).1 = 1 ∨
    (read_block_loop dev_addr data_addr i n buf b).1 = -3 := by
  intro n
  induction n with
  | zero => intro i buf b; left; rfl
  | succ n ih =>
      intro i buf b
      by_cases h0 : (verified_read dev_addr ((data_addr + i) % 256) b).1 < 0
      · right
        simp only [read_block_loop]
        rw [if_pos h0]
      · have hred : read_block_loop dev_addr data_addr i (n + 1) buf b =
            read_block_loop dev_addr data_addr (i + 1) n
              (buf.set i ((verified_read dev_addr ((data_addr + i) % 256) b).1.toNat % 256))
              (verified_read dev_addr ((data_addr + i) % 256) b).2 := by
          simp only [read_block_loop]
          rw [if_neg h0]
        rw [hred]
        exact ih _ _ _

/-- Claim C3: read_block rejects a block with start address + length > 128
with code -1 before any bus activity; otherwise, when Discovery
acknowledges and every per-address verified read succeeds, it returns 1
and the buffer holds the verified-read value of address start + j at
index j, in ascending address order, with the buffer length preserved. -/
theorem read_block_spec (dev_addr data_addr len : Nat) (buf : List Nat) (b : Bus) :
    (data_addr + len > 128 → read_block dev_addr data_addr buf len b = (-1, buf, b)) ∧
    (data_addr + len ≤ 128 → len ≤ buf.length →
      ∀ b1 : Bus, send_cmd DISCOVERY 0 b = (0, b1) →
      (∀ j, j < len → 0 ≤ vr_val dev_addr data_addr 0 b1 j) →
      (read_block dev_addr data_addr buf len b).1 = 1 ∧
      (read_block dev_addr data_addr buf len b).2.1.length = buf.length ∧
      (∀ j, j < len →
        ((read_block dev_addr data_addr buf len b).2.1.getD j 0 : Int) =
          vr_val dev_addr data_addr 0 b1 j)) := by
  constructor
  · intro h
    simp only [read_block]
    rw [if_pos (by omega)]
  · intro hle hlen b1 h1 hpos
    have hred : read_block dev_addr data_addr buf len b =
        read_block_loop dev_addr data_addr 0 len buf b1 := by
      simp only [read_block]
      rw [if_neg (by omega), h1]
      simp
    obtain ⟨ha, hb, hc, _⟩ :=
      read_block_loop_ok dev_addr data_addr len 0 buf b1 (by omega) hpos
    rw [hred]
    refine ⟨ha, hb, ?_⟩
    intro j hj
    rw [hc j, if_pos (by omega)]
    have hj0 : j - 0 = j := rfl
    rw [hj0]
    have hge := hpos j hj
    have hle255 : vr_val dev_addr data_addr 0 b1 j ≤ 255 := by
      unfold vr_val
      exact verified_read_le _ _ _
    have hlt : (vr_val dev_addr data_addr 0 b1 j).toNat < 256 := by omega
    rw [Nat.mod_eq_of_lt hlt]
    exact Int.toNat_of_nonneg hge

/-- Witness for C3: a two-byte block read on an all-acknowledging bus. -/
theorem read_block_spec_witness :
    (read_block 0 0 [9, 9] 2 (mkBus [])).1 = 1 :=
  ((read_block_spec 0 0 2 [9, 9] (mkBus [])).2 (by decide) (by decide)
    (send_cmd DISCOVERY 0 (mkBus [])).2 rfl (by decide)).1

/-- Claim C4: once the range check and Discovery pass, a failing verified
read anywhere in the block makes read_block abort with the single error
code -3, regardless of which address failed. -/
theorem read_block_abort_spec (dev_addr data_addr len : Nat) (buf : List Nat)
    (b b1 : Bus) :
    data_addr + len ≤ 128 →
    send_cmd DISCOVERY 0 b = (0, b1) →
    (∃ j, j < len ∧ vr_val dev_addr data_addr 0 b1 j < 0) →
    (read_block dev_addr data_addr buf len b).1 = -3 := by
  intro hle h1 hex
  have hred : read_block dev_addr data_addr buf len b =
      read_block_loop dev_addr data_addr 0 len buf b1 := by
    simp only [read_block]
    rw [if_neg (by omega), h1]
    simp
  rw [hred]
  exact read_block_loop_abort dev_addr data_addr len 0 buf b1 hex

/-- Witness for C4: the first verified read fails (re-addressing NACK),
and the block read returns -3. -/
theorem read_block_abort_spec_witness :
    (read_block 0 0 [9] 1 (mkBus [0, 0, 0, 1, 0, 0, 1])).1 = -3 :=
  read_block_abort_spec 0 0 1 [9] (mkBus [0, 0, 0, 1, 0, 0, 1])
    (send_cmd DISCOVERY 0 (mkBus [0, 0, 0, 1, 0, 0, 1])).2 (by decide) rfl
    ⟨0, by decide, by decide⟩

/-- Claim C10: the range check of read_block is computed in full integer
arithmetic, so over 8-bit arguments it rejects (result -1, buffer and bus
untouched) exactly the requests with start address + length > 128 — in
particular start 255, length 255 is rejected rather than wrapping — and a
zero-length request with start address at most 128 passes the check, does
no per-byte read, leaves the buffer unchanged and returns 1 when
Discovery acknowledges. -/
theorem read_block_range_arith (dev_addr data_addr len : Nat) (buf : List Nat) (b : Bus) :
    data_addr < 256 → len < 256 →
    (((read_block dev_addr data_addr buf len b).1 = -1 ∧
      (read_block dev_addr data_addr buf len b).2.1 = buf ∧
      (read_block dev_addr data_addr buf len b).2.2 = b) ↔ data_addr + len > 128) ∧
    (read_block dev_addr 255 buf 255 b).1 = -1 ∧
    (len = 0 → data_addr ≤ 128 → ∀ b1 : Bus, send_cmd DISCOVERY 0 b = (0, b1) →
      read_block dev_addr data_addr buf 0 b = (1, buf, b1)) := by
  intro hd hl
  refine ⟨⟨?_, ?_⟩, ?_, ?_⟩
  · intro hres
    by_contra hgt
    push_neg at hgt
    have hne : (read_block dev_addr data_addr buf len b).1 ≠ -1 := by
      simp only [read_block]
      rw [if_neg (by omega)]
      split_ifs with hc
      · norm_num
      · rcases read_block_loop_cases dev_addr data_addr len 0 buf
          (send_cmd DISCOVERY 0 b).2 with h | h <;> omega
    exact hne hres.1
  · intro hgt
    have h : read_block dev_addr data_addr buf len b = (-1, buf, b) := by
      simp only [read_block]
      rw [if_pos (by omega)]
    rw [h]
    exact ⟨rfl, rfl, rfl⟩
  · have h : read_block dev_addr 255 buf 255 b = (-1, buf, b) := by
      simp only [read_block]
      rw [if_pos (by omega)]
    rw [h]
  · intro hlen0 hle b1 h1
    subst hlen0
    simp only [read_block]
    rw [if_neg (by omega), h1]
    simp [read_block_loop]

/-- Witness for C10: the zero-length block read on an acknowledging bus. -/
theorem read_block_range_arith_witness :
    read_block 0 0 [] 0 (mkBus []) = (1, [], (send_cmd DISCOVERY 0 (mkBus [])).2) :=
  (read_block_range_arith 0 0 0 [] (mkBus []) (by decide) (by decide)).2.2 rfl
    (by decide) (send_cmd DISCOVERY 0 (mkBus [])).2 rfl
